import Mathlib

/-!
Verification of the heap allocator in chap07/malloc.c.

The allocator works on raw heap bytes.  We embed it shallowly:

* Memory is modeled at word granularity: a map from byte address to the
  machine word stored at that address.  Every read and write the allocator
  performs is a full word at an explicit byte address (the size header at
  `p`, the prev link at `p + 8`, the next link at `p + 16`), and in every
  execution considered here each address that is read was written at exactly
  that address, so the word-granular map agrees with byte-level C memory on
  all observations made.
* Addresses and sizes are unbounded naturals.  All scenarios stay far below
  2^64, so the wraparound of size_t arithmetic never fires (each call site of
  the one subtraction, in slice, guards `original_size > size + 8`).
* The null pointer is the address 0.
* sbrk(2) is an external collaborator; it is modeled by an oracle inside the
  state: a list of Booleans saying whether each successive call fails
  (an empty list means every call succeeds), plus a log of requested deltas.
* Loops that chase pointers through memory take an explicit fuel argument;
  the lists in all scenarios are short, so a small fuel is exact.
* `kill(getpid(), SIGSEGV)` (the fatal-abort collaborator) is modeled by
  `free` returning `none`.
-/

namespace MallocSpec

/-- Word-granular byte-addressed heap memory: the word stored at each byte address. -/
abbrev Mem := Nat → Nat

/-- Read the word at address `a`. -/
def mread (m : Mem) (a : Nat) : Nat := m a

/-- Write the word `v` at address `a`. -/
def mstore (m : Mem) (a v : Nat) : Mem := fun b => if b = a then v else m b

/-- C: `_MALLOC_HEADER_SIZE = sizeof(size_t)` on a 64-bit system. -/
def HEADER_SIZE : Nat := 8

/-- C: `_MALLOC_POINTER_SIZE = sizeof(void *)` on a 64-bit system. -/
def POINTER_SIZE : Nat := 8

/-- C: `_MALLOC_MAX_FREE_BLK` default, 128 KiB. -/
def MAX_FREE_BLK : Nat := 128 * 1024

/-- C `write_size`: adds size information at the start of a block. -/
def write_size (m : Mem) (p size : Nat) : Mem := mstore m p size

/-- C `read_size`: reads the size of a block from its first bytes. -/
def read_size (m : Mem) (p : Nat) : Nat := mread m p

/-- C `set_previous_free_block`: the previous pointer sits right after the size. -/
def set_previous_free_block (m : Mem) (p q : Nat) : Mem :=
  mstore m (p + HEADER_SIZE) q

/-- C `get_previous_free_block`. -/
def get_previous_free_block (m : Mem) (p : Nat) : Nat :=
  mread m (p + HEADER_SIZE)

/-- C `set_next_free_block`: the next pointer sits right after the previous pointer. -/
def set_next_free_block (m : Mem) (p q : Nat) : Mem :=
  mstore m (p + HEADER_SIZE + POINTER_SIZE) q

/-- C `get_next_free_block`. -/
def get_next_free_block (m : Mem) (p : Nat) : Nat :=
  mread m (p + HEADER_SIZE + POINTER_SIZE)

/-- C `get_base_address`: recover the block base from a user payload pointer. -/
def get_base_address (p : Nat) : Nat := p - HEADER_SIZE

/-- C `end_address`: one past the last payload byte of the block at `p`. -/
def end_address (m : Mem) (p : Nat) : Nat := p + HEADER_SIZE + read_size m p

/-- C `continuous`: whether two memory blocks are contiguous. -/
def continuous (m : Mem) (p1 p2 : Nat) : Bool := end_address m p1 == p2

/-- C `coalesce`: merge two contiguous blocks, absorbing the second header. -/
def coalesce (m : Mem) (p1 p2 : Nat) : Mem :=
  write_size m p1 (read_size m p1 + HEADER_SIZE + read_size m p2)

/-- The allocator's process state: heap memory, the `_free_list` head pointer
(0 encodes NULL), the current program break, and the model of the external
sbrk collaborator (failure oracle and request log). -/
structure AllocState where
  mem : Mem
  free_list : Nat
  brk : Nat
  sbrkFail : List Bool
  sbrkLog : List Int

/-- The program-break primitive: returns the previous break on success
(`none` models the `(void *) -1` failure sentinel).  Whether a call fails is
decided by the oracle list in the state; an exhausted oracle means success. -/
def sbrk (s : AllocState) (delta : Int) : Option Nat × AllocState :=
  match s.sbrkFail with
  | [] =>
      (some s.brk, { s with brk := ((s.brk : Int) + delta).toNat,
                            sbrkLog := s.sbrkLog ++ [delta] })
  | f :: rest =>
      if f then
        (none, { s with sbrkFail := rest, sbrkLog := s.sbrkLog ++ [delta] })
      else
        (some s.brk, { s with brk := ((s.brk : Int) + delta).toNat,
                              sbrkFail := rest, sbrkLog := s.sbrkLog ++ [delta] })

/-- C `last_free_block` loop body: follow next links until NULL, starting at
`curr` (the caller passes `_free_list`, assumed non-NULL as in the C code). -/
def last_free_block (m : Mem) : Nat → Nat → Nat
  | 0, curr => curr
  | fuel + 1, curr =>
      let nxt := get_next_free_block m curr
      if nxt = 0 then curr else last_free_block m fuel nxt

/-- C `check_footprint`: if the last free block is at least `MAX_FREE_BLK`
large, unlink it (only when it has a predecessor; the C code has no branch
clearing `_free_list`) and give its bytes back via a negative sbrk, ignoring
the result. -/
def check_footprint (fuel : Nat) (s : AllocState) : AllocState :=
  let last := last_free_block s.mem fuel s.free_list
  let prev := get_previous_free_block s.mem last
  let last_size := read_size s.mem last
  if MAX_FREE_BLK ≤ last_size then
    let s1 := if prev ≠ 0 then { s with mem := set_next_free_block s.mem prev 0 } else s
    (sbrk s1 (-((last_size + HEADER_SIZE : Nat) : Int))).2
  else s

/-- C `slice`: carve `size` payload bytes out of the free block at `ptr`,
maintaining the free list links.  Returns the new memory, the new value of
`_free_list` (the C code assigns the global; we thread it), and the user
pointer past the header; `none` when the block is not strictly larger than
the request. -/
def slice (m : Mem) (flhead ptr size : Nat) : Option (Mem × Nat × Nat) :=
  let previous_ptr := get_previous_free_block m ptr
  let next_ptr := get_next_free_block m ptr
  let original_size := read_size m ptr
  if original_size ≤ size then none
  else
    let p := ptr + HEADER_SIZE + size
    let m1 := if previous_ptr ≠ 0 then set_next_free_block m previous_ptr p else m
    let flhead1 := if previous_ptr ≠ 0 then flhead else p
    let m2 := if next_ptr ≠ 0 then set_previous_free_block m1 next_ptr p else m1
    let m3 := write_size m2 ptr size
    let m4 := write_size m3 p (original_size - size - HEADER_SIZE)
    let m5 := set_previous_free_block m4 p previous_ptr
    let m6 := set_next_free_block m5 p next_ptr
    some (m6, flhead1, ptr + HEADER_SIZE)

/-- C malloc search loop: first-fit walk of the free list from `p`, looking
for a block strictly larger than `size + HEADER_SIZE`. -/
def findFit (m : Mem) : Nat → Nat → Nat → Option Nat
  | 0, _, _ => none
  | fuel + 1, p, size =>
      if p = 0 then none
      else if size + HEADER_SIZE < read_size m p then some p
      else findFit m fuel (get_next_free_block m p) size

/-- The part of C `malloc` after lazy initialization: first-fit search and
slice, else grow the break by `2*size + HEADER_SIZE`, extend the last free
block, and slice from it. -/
def malloc_core (fuel size : Nat) (s : AllocState) : Option Nat × AllocState :=
  match findFit s.mem fuel s.free_list size with
  | some p =>
      match slice s.mem s.free_list p size with
      | some r => (some r.2.2, { s with mem := r.1, free_list := r.2.1 })
      | none => (none, s)
  | none =>
      let last := last_free_block s.mem fuel s.free_list
      let last_size := read_size s.mem last
      let break_increase := 2 * size + HEADER_SIZE
      match sbrk s ((break_increase : Nat) : Int) with
      | (none, s1) => (none, s1)
      | (some _, s1) =>
          let m2 := write_size s1.mem last (last_size + break_increase)
          match slice m2 s1.free_list last size with
          | some r => (some r.2.2, { s1 with mem := r.1, free_list := r.2.1 })
          | none => (none, { s1 with mem := m2 })

/-- C `malloc`: a zero request becomes 1; on first use, lazily create the
free list with `2*size` payload bytes obtained from sbrk. -/
def malloc (fuel sz : Nat) (s : AllocState) : Option Nat × AllocState :=
  let size := if sz = 0 then 1 else sz
  if s.free_list = 0 then
    match sbrk s ((2 * size + HEADER_SIZE : Nat) : Int) with
    | (none, s1) => (none, s1)
    | (some breakp, s1) =>
        let m1 := write_size s1.mem breakp (2 * size)
        let m2 := set_previous_free_block m1 breakp 0
        let m3 := set_next_free_block m2 breakp 0
        malloc_core fuel size { s1 with mem := m3, free_list := breakp }
  else malloc_core fuel size s

/-- C free insertion-point loop: `while (curr && curr < base) { prev = curr;
curr = next(prev); }`, returning the final `(prev, curr)`. -/
def free_walk (m : Mem) : Nat → Nat → Nat → Nat → Nat × Nat
  | 0, prev, curr, _ => (prev, curr)
  | fuel + 1, prev, curr, base =>
      if curr ≠ 0 ∧ curr < base then
        free_walk m fuel curr (get_next_free_block m curr) base
      else (prev, curr)

/-- C `free`.  A NULL pointer is a no-op.  A non-NULL pointer with no free
list sends SIGSEGV to the process (modeled as `none`).  Otherwise insert the
block in address order, coalescing with an adjacent neighbor, following the
exact case structure and statement order of the source (in particular,
`check_footprint` runs before `_free_list` is reassigned in the head case). -/
def free (fuel ptr : Nat) (s : AllocState) : Option AllocState :=
  if ptr = 0 then some s
  else if s.free_list = 0 then none
  else
    let base_address := get_base_address ptr
    let pc := free_walk s.mem fuel 0 s.free_list base_address
    let prev := pc.1
    let curr := pc.2
    if prev ≠ 0 then
      if curr ≠ 0 then
        if continuous s.mem prev base_address then
          some { s with mem := coalesce s.mem prev base_address }
        else if continuous s.mem base_address curr then
          let m1 := coalesce s.mem base_address curr
          let m2 := set_next_free_block m1 prev base_address
          let m3 := set_previous_free_block m2 base_address prev
          let m4 := set_next_free_block m3 base_address (get_next_free_block m3 curr)
          some (check_footprint fuel { s with mem := m4 })
        else
          let m1 := set_next_free_block s.mem prev base_address
          let m2 := set_previous_free_block m1 curr base_address
          let m3 := set_previous_free_block m2 base_address prev
          let m4 := set_next_free_block m3 base_address curr
          some { s with mem := m4 }
      else
        if continuous s.mem prev base_address then
          some (check_footprint fuel { s with mem := coalesce s.mem prev base_address })
        else
          let m1 := set_next_free_block s.mem prev base_address
          let m2 := set_previous_free_block m1 base_address prev
          let m3 := set_next_free_block m2 base_address 0
          some { s with mem := m3 }
    else
      if continuous s.mem base_address curr then
        let m1 := coalesce s.mem base_address curr
        let p := get_next_free_block m1 curr
        let m2 := if p ≠ 0 then set_previous_free_block m1 p base_address else m1
        let m3 := set_previous_free_block m2 base_address 0
        let m4 := set_next_free_block m3 base_address p
        let s1 := check_footprint fuel { s with mem := m4 }
        some { s1 with free_list := base_address }
      else
        let m1 := set_previous_free_block s.mem curr base_address
        let m2 := set_previous_free_block m1 base_address 0
        let m3 := set_next_free_block m2 base_address curr
        some { s with mem := m3, free_list := base_address }

/-- A fresh process: no free list yet, program break at `B`, all sbrk calls
destined to succeed. -/
def freshState (B : Nat) : AllocState :=
  { mem := fun _ => 0, free_list := 0, brk := B, sbrkFail := [], sbrkLog := [] }

/-- A fresh process whose sbrk calls succeed or fail per the given oracle. -/
def freshStateO (B : Nat) (o : List Bool) : AllocState :=
  { mem := fun _ => 0, free_list := 0, brk := B, sbrkFail := o, sbrkLog := [] }

/-- Observation: the free list spine, as `(address, size, prev, next)`
tuples in next-link order. -/
def spine (m : Mem) : Nat → Nat → List (Nat × Nat × Nat × Nat)
  | 0, _ => []
  | fuel + 1, p =>
      if p = 0 then []
      else (p, read_size m p, get_previous_free_block m p, get_next_free_block m p)
             :: spine m fuel (get_next_free_block m p)

/-- Observation: the doubly-linked-list invariant of the spec, for every
block linked in the free list: `next = 0 ∨ next.prev = b`,
`prev = 0 ∨ prev.next = b`, and `prev = 0 → free_list = b`. -/
def dll_ok (fuel : Nat) (s : AllocState) : Bool :=
  (spine s.mem fuel s.free_list).all fun e =>
    (e.2.2.2 == 0 || get_previous_free_block s.mem e.2.2.2 == e.1) &&
    (e.2.2.1 == 0 || get_next_free_block s.mem e.2.2.1 == e.1) &&
    (e.2.2.1 != 0 || s.free_list == e.1)

/-- The first walk of the free list in next-link order, as a list of block
addresses (used to state the first-fit property of the search). -/
def chainOf (m : Mem) : Nat → Nat → List Nat
  | 0, _ => []
  | fuel + 1, p =>
      if p = 0 then [] else p :: chainOf m fuel (get_next_free_block m p)

/-- Observation of a possibly-aborted state: free list head, break, and the
free list spine; an aborted run observes as `(0, 0, [])`. -/
def obsSpine (o : Option AllocState) : Nat × Nat × List (Nat × Nat × Nat × Nat) :=
  match o with
  | none => (0, 0, [])
  | some s => (s.free_list, s.brk, spine s.mem 3 s.free_list)

/-- Observation for the doubly-linked-list invariant: whether it holds, plus
the next pointer of the block at `a` and the prev pointer of the block at
`b`; an aborted run observes as `(true, 0, 0)`. -/
def obsLinks (a b : Nat) (o : Option AllocState) : Bool × Nat × Nat :=
  match o with
  | none => (true, 0, 0)
  | some s => (dll_ok 8 s, get_next_free_block s.mem a, get_previous_free_block s.mem b)

/-- An operation issued by the embedding program. -/
inductive Op where
  | alloc : Nat → Op
  | dealloc : Nat → Op

/-- Run a sequence of public operations; `none` if a free aborted the
process.  malloc results are dropped (the scenarios name the returned
pointers explicitly). -/
def runOps (fuel : Nat) : List Op → AllocState → Option AllocState
  | [], s => some s
  | Op.alloc n :: rest, s => runOps fuel rest (malloc fuel n s).2
  | Op.dealloc p :: rest, s =>
      match free fuel p s with
      | none => none
      | some s2 => runOps fuel rest s2

/-- Spec-phrased observation, for the round-trip law: the free list is a
single block at the heap base `B` whose payload covers all of
`[B + HEADER_SIZE, program break)`. -/
def singleCoveringBlock (s : AllocState) (B : Nat) : Bool :=
  decide (s.free_list = B) &&
  decide (spine s.mem 2 B = [(B, read_size s.mem B, 0, 0)]) &&
  decide (B + HEADER_SIZE + read_size s.mem B = s.brk)

/-- Concrete two-block free list for the reclamation-failure scenario:
a small head block at 8 and a tail block of exactly `MAX_FREE_BLK` at 32,
ending at the program break. -/
def c9mem : Mem :=
  mstore (mstore (mstore (mstore (mstore (mstore (fun _ => 0)
    8 16) 16 0) 24 32) 32 131072) 40 8) 48 0

/-- State around `c9mem` whose next sbrk call (the shrink) fails. -/
def c9state : AllocState :=
  { mem := c9mem, free_list := 8, brk := 131112, sbrkFail := [true], sbrkLog := [] }

/-- Concrete free list for the first-fit witness: a block at 8 of size
exactly `16 + HEADER_SIZE`, then a block at 40 of size 32. -/
def c6mem : Mem :=
  mstore (mstore (mstore (mstore (mstore (mstore (fun _ => 0)
    8 24) 16 0) 24 40) 40 32) 48 8) 56 0

/-- The heap memory produced by a first allocation of (effective) size
`s > 8` from a fresh process with break at `B`: the lazily created block of
payload `2*s` at `B`, then sliced at `B` leaving the remainder at `B+8+s`. -/
def initMem (B s : Nat) : Mem :=
  set_next_free_block (set_previous_free_block (write_size (fun _ => 0) B (2 * s)) B 0) B 0

/-- Memory after the split of the initial block (first-fit hit, `8 < s`). -/
def bigMem (B s : Nat) : Mem :=
  set_next_free_block (set_previous_free_block (write_size (write_size (initMem B s) B s)
    (B + 8 + s) (2 * s - s - 8)) (B + 8 + s) 0) (B + 8 + s) 0

/-- Memory after the growth path extends the initial block (`s ≤ 8`). -/
def growMem (B s : Nat) : Mem := write_size (initMem B s) B (2 * s + (2 * s + 8))

/-- Memory after the split of the grown block (`s ≤ 8`). -/
def smallMem (B s : Nat) : Mem :=
  set_next_free_block (set_previous_free_block (write_size (write_size (growMem B s) B s)
    (B + 8 + s) (2 * s + (2 * s + 8) - s - 8)) (B + 8 + s) 0) (B + 8 + s) 0

/-! Helper lemmas: resolving reads over stores, and symbolic executions of
the two fresh-allocation paths shared by several claims. -/

theorem mread_mstore_of_eq (m : Mem) (a v b : Nat) (h : b = a) :
    mread (mstore m a v) b = v := by simp [mread, mstore, h]

theorem mread_mstore_of_ne (m : Mem) (a v b : Nat) (h : ¬ b = a) :
    mread (mstore m a v) b = mread m b := by simp [mread, mstore, h]

theorem mread_zero (a : Nat) : mread (fun _ => 0) a = 0 := rfl

theorem toNat_add_nn (a b : Nat) : ((a : Int) + (b : Int)).toNat = a + b := by omega

theorem toNat_add_neg (a b : Nat) : ((a : Int) + -(b : Int)).toNat = a - b := by omega

theorem initMem_rs (B s : Nat) : read_size (initMem B s) B = 2 * s := by
  simp (disch := omega) only [initMem, read_size, write_size, set_previous_free_block,
    set_next_free_block, HEADER_SIZE, POINTER_SIZE, mread_mstore_of_eq, mread_mstore_of_ne]

theorem initMem_prev (B s : Nat) : get_previous_free_block (initMem B s) B = 0 := by
  simp (disch := omega) only [initMem, get_previous_free_block, write_size,
    set_previous_free_block, set_next_free_block, HEADER_SIZE, POINTER_SIZE,
    mread_mstore_of_eq, mread_mstore_of_ne]

theorem initMem_next (B s : Nat) : get_next_free_block (initMem B s) B = 0 := by
  simp (disch := omega) only [initMem, get_next_free_block, write_size,
    set_previous_free_block, set_next_free_block, HEADER_SIZE, POINTER_SIZE,
    mread_mstore_of_eq, mread_mstore_of_ne]

theorem bigMem_rs_base (B s : Nat) : read_size (bigMem B s) B = s := by
  simp (disch := omega) only [bigMem, initMem, read_size, write_size,
    set_previous_free_block, set_next_free_block, HEADER_SIZE, POINTER_SIZE,
    mread_mstore_of_eq, mread_mstore_of_ne]

theorem bigMem_rs_rem (B s : Nat) : read_size (bigMem B s) (B + 8 + s) = 2 * s - s - 8 := by
  simp (disch := omega) only [bigMem, initMem, read_size, write_size,
    set_previous_free_block, set_next_free_block, HEADER_SIZE, POINTER_SIZE,
    mread_mstore_of_eq, mread_mstore_of_ne]

theorem bigMem_prev_rem (B s : Nat) :
    get_previous_free_block (bigMem B s) (B + 8 + s) = 0 := by
  simp (disch := omega) only [bigMem, initMem, get_previous_free_block, read_size,
    write_size, set_previous_free_block, set_next_free_block, HEADER_SIZE, POINTER_SIZE,
    mread_mstore_of_eq, mread_mstore_of_ne]

theorem bigMem_next_rem (B s : Nat) :
    get_next_free_block (bigMem B s) (B + 8 + s) = 0 := by
  simp (disch := omega) only [bigMem, initMem, get_next_free_block, read_size,
    write_size, set_previous_free_block, set_next_free_block, HEADER_SIZE, POINTER_SIZE,
    mread_mstore_of_eq, mread_mstore_of_ne]

theorem growMem_rs (B s : Nat) : read_size (growMem B s) B = 2 * s + (2 * s + 8) := by
  simp (disch := omega) only [growMem, read_size, write_size,
    mread_mstore_of_eq, mread_mstore_of_ne]

theorem growMem_prev (B s : Nat) : get_previous_free_block (growMem B s) B = 0 := by
  simp (disch := omega) only [growMem, get_previous_free_block, write_size, HEADER_SIZE,
    mread_mstore_of_eq, mread_mstore_of_ne]
  exact initMem_prev B s

theorem growMem_next (B s : Nat) : get_next_free_block (growMem B s) B = 0 := by
  simp (disch := omega) only [growMem, get_next_free_block, write_size, HEADER_SIZE,
    POINTER_SIZE, mread_mstore_of_eq, mread_mstore_of_ne]
  exact initMem_next B s

theorem smallMem_rs_base (B s : Nat) : read_size (smallMem B s) B = s := by
  simp (disch := omega) only [smallMem, growMem, initMem, read_size, write_size,
    set_previous_free_block, set_next_free_block, HEADER_SIZE, POINTER_SIZE,
    mread_mstore_of_eq, mread_mstore_of_ne]

theorem smallMem_rs_rem (B s : Nat) :
    read_size (smallMem B s) (B + 8 + s) = 2 * s + (2 * s + 8) - s - 8 := by
  simp (disch := omega) only [smallMem, growMem, initMem, read_size, write_size,
    set_previous_free_block, set_next_free_block, HEADER_SIZE, POINTER_SIZE,
    mread_mstore_of_eq, mread_mstore_of_ne]

theorem smallMem_prev_rem (B s : Nat) :
    get_previous_free_block (smallMem B s) (B + 8 + s) = 0 := by
  simp (disch := omega) only [smallMem, growMem, initMem, get_previous_free_block,
    read_size, write_size, set_previous_free_block, set_next_free_block, HEADER_SIZE,
    POINTER_SIZE, mread_mstore_of_eq, mread_mstore_of_ne]

theorem smallMem_next_rem (B s : Nat) :
    get_next_free_block (smallMem B s) (B + 8 + s) = 0 := by
  simp (disch := omega) only [smallMem, growMem, initMem, get_next_free_block,
    read_size, write_size, set_previous_free_block, set_next_free_block, HEADER_SIZE,
    POINTER_SIZE, mread_mstore_of_eq, mread_mstore_of_ne]

/-- Symbolic execution of `malloc` from a fresh process when the effective
request `s` exceeds 8 (the initial block of payload `2*s` satisfies the
first-fit search immediately). -/
theorem malloc_fresh_big (B s n : Nat) (hB : 0 < B) (hs : 8 < s)
    (hn : (if n = 0 then 1 else n) = s) :
    malloc 4 n (freshState B) =
      (some (B + 8),
       { mem := bigMem B s, free_list := B + 8 + s, brk := B + (2 * s + 8),
         sbrkFail := [], sbrkLog := [((2 * s + 8 : Nat) : Int)] }) := by
  have hB0 : ¬ (B = 0) := by omega
  have e1 : malloc 4 n (freshState B) =
      malloc_core 4 s
        { mem := initMem B s, free_list := B, brk := B + (2 * s + 8),
          sbrkFail := [], sbrkLog := [((2 * s + 8 : Nat) : Int)] } := by
    simp only [malloc, hn, freshState, sbrk, toNat_add_nn, List.nil_append, hB0, HEADER_SIZE]
    rfl
  have hc1 : s + 8 < 2 * s := by omega
  have efit : findFit (initMem B s) 4 B s = some B := by
    simp only [findFit, hB0, initMem_rs, HEADER_SIZE, hc1, if_true, ite_false, ite_true]
  have hc2 : ¬ (2 * s ≤ s) := by omega
  have eslice : slice (initMem B s) B B s = some (bigMem B s, B + 8 + s, B + 8) := by
    simp only [slice, initMem_prev, initMem_next, initMem_rs, hc2, HEADER_SIZE,
      ite_false, ite_true, bigMem]
    simp
  rw [e1]
  simp only [malloc_core, efit, eslice]

/-- Symbolic execution of `malloc` from a fresh process when the effective
request `s` is at most 8: the initial block of payload `2*s` fails the
strict first-fit test, so the break is grown a second time. -/
theorem malloc_fresh_small (B s n : Nat) (hB : 0 < B) (hs1 : 1 ≤ s) (hs : ¬ 8 < s)
    (hn : (if n = 0 then 1 else n) = s) :
    malloc 4 n (freshState B) =
      (some (B + 8),
       { mem := smallMem B s, free_list := B + 8 + s,
         brk := B + (2 * s + 8) + (2 * s + 8), sbrkFail := [],
         sbrkLog := [((2 * s + 8 : Nat) : Int), ((2 * s + 8 : Nat) : Int)] }) := by
  have hB0 : ¬ (B = 0) := by omega
  have e1 : malloc 4 n (freshState B) =
      malloc_core 4 s
        { mem := initMem B s, free_list := B, brk := B + (2 * s + 8),
          sbrkFail := [], sbrkLog := [((2 * s + 8 : Nat) : Int)] } := by
    simp only [malloc, hn, freshState, sbrk, toNat_add_nn, List.nil_append, hB0, HEADER_SIZE]
    rfl
  have hc1 : ¬ (s + 8 < 2 * s) := by omega
  have efit : findFit (initMem B s) 4 B s = none := by
    simp only [findFit, hB0, initMem_rs, initMem_next, HEADER_SIZE, hc1,
      ite_false, ite_true, if_false, if_true]
  have elast : last_free_block (initMem B s) 4 B = B := by
    simp only [last_free_block, initMem_next, ite_true, if_true]
  have hc2 : ¬ (2 * s + (2 * s + 8) ≤ s) := by omega
  have eslice : slice (growMem B s) B B s =
      some (smallMem B s, B + 8 + s, B + 8) := by
    simp only [slice, growMem_prev, growMem_next, growMem_rs, hc2, HEADER_SIZE,
      ite_false, ite_true, if_false, if_true, smallMem]
    simp
  rw [e1]
  simp only [malloc_core, efit, elast, initMem_rs, HEADER_SIZE, sbrk, toNat_add_nn,
    List.cons_append, List.nil_append]
  have egrow : write_size (initMem B s) B (2 * s + (2 * s + 8)) = growMem B s := rfl
  rw [egrow, eslice]

/-- Symbolic execution of `free` on the single handed-out pointer `B + 8`
when the free list is a single remainder block at `B + 8 + sz` adjacent to
the freed block: the head-case coalesce fires and `check_footprint` does
nothing because the stale tail stays below the threshold. -/
theorem free_after_single (B sz rem : Nat) (M : Mem) (st : AllocState)
    (hmem : st.mem = M) (hfl : st.free_list = B + 8 + sz) (hB : 0 < B) (hsz : 1 ≤ sz)
    (h1 : read_size M B = sz) (h2 : read_size M (B + 8 + sz) = rem)
    (h3 : get_previous_free_block M (B + 8 + sz) = 0)
    (h4 : get_next_free_block M (B + 8 + sz) = 0)
    (hrem : rem < MAX_FREE_BLK) :
    free 4 (B + 8) st =
      some { st with
             mem := set_next_free_block (set_previous_free_block
                      (coalesce M B (B + 8 + sz)) B 0) B 0,
             free_list := B } := by
  have hq0 : ¬ (B + 8 = 0) := by omega
  have hfl0 : ¬ (B + 8 + sz = 0) := by omega
  have hw : ¬ (B + 8 + sz ≠ 0 ∧ B + 8 + sz < B) := by omega
  have ebase : get_base_address (B + 8) = B := by
    simp [get_base_address, HEADER_SIZE]
  have ewalk : free_walk M 4 0 (B + 8 + sz) B = (0, B + 8 + sz) := by
    simp only [free_walk, hw, ite_false, if_false]
  have econt : continuous M B (B + 8 + sz) = true := by
    simp [continuous, end_address, h1, HEADER_SIZE]
  have ep : get_next_free_block (coalesce M B (B + 8 + sz)) (B + 8 + sz) = 0 := by
    simp (disch := omega) only [coalesce, write_size, get_next_free_block, HEADER_SIZE,
      POINTER_SIZE, mread_mstore_of_ne]
    exact h4
  have e1 : free 4 (B + 8) st =
      some { check_footprint 4
               { st with mem := set_next_free_block (set_previous_free_block
                   (coalesce M B (B + 8 + sz)) B 0) B 0 } with
             free_list := B } := by
    simp only [free, hq0, hmem, hfl, hfl0, ebase, ewalk, econt, ep,
      ite_true, ite_false, if_true, if_false, ne_eq, not_true, not_false_iff]
  rw [e1]
  have enx : get_next_free_block (set_next_free_block (set_previous_free_block
      (coalesce M B (B + 8 + sz)) B 0) B 0) (B + 8 + sz) = 0 := by
    simp (disch := omega) only [coalesce, write_size, get_next_free_block,
      set_next_free_block, set_previous_free_block, HEADER_SIZE, POINTER_SIZE,
      mread_mstore_of_ne]
    exact h4
  have elast : last_free_block (set_next_free_block (set_previous_free_block
      (coalesce M B (B + 8 + sz)) B 0) B 0) 4 (B + 8 + sz) = B + 8 + sz := by
    simp only [last_free_block, enx, ite_true, if_true]
  have efp : check_footprint 4
      { st with mem := set_next_free_block (set_previous_free_block
          (coalesce M B (B + 8 + sz)) B 0) B 0 } =
      { st with mem := set_next_free_block (set_previous_free_block
          (coalesce M B (B + 8 + sz)) B 0) B 0 } := by
    rcases eq_or_ne sz 8 with h8 | h8
    · have esz : read_size (set_next_free_block (set_previous_free_block
          (coalesce M B (B + 8 + sz)) B 0) B 0) (B + 8 + sz) = 0 := by
        subst h8
        simp (disch := omega) only [coalesce, write_size, read_size,
          set_next_free_block, set_previous_free_block, HEADER_SIZE, POINTER_SIZE,
          mread_mstore_of_eq, mread_mstore_of_ne]
      have hle : ¬ (MAX_FREE_BLK ≤ 0) := by decide
      simp only [check_footprint, hfl, elast, esz, hle, ite_false, if_false]
    · have esz : read_size (set_next_free_block (set_previous_free_block
          (coalesce M B (B + 8 + sz)) B 0) B 0) (B + 8 + sz) = rem := by
        simp (disch := omega) only [coalesce, write_size, read_size,
          set_next_free_block, set_previous_free_block, HEADER_SIZE, POINTER_SIZE,
          mread_mstore_of_ne]
        exact h2
      have hle : ¬ (MAX_FREE_BLK ≤ rem) := not_le.mpr hrem
      simp only [check_footprint, hfl, elast, esz, hle, ite_false, if_false]
  rw [efp]

theorem head_some_true (l : List Bool) (h : l.head? = some true) : ∃ t, l = true :: t := by
  cases l with
  | nil => simp at h
  | cons a t =>
      simp at h
      exact ⟨t, by rw [h]⟩

theorem slice_result (m : Mem) (fl ptr size : Nat) (r : Mem × Nat × Nat)
    (h : slice m fl ptr size = some r) :
    r.2.2 = ptr + HEADER_SIZE ∧ read_size r.1 ptr = size := by
  by_cases hle : read_size m ptr ≤ size
  · simp only [slice, hle, ite_true, if_true] at h
    exact Option.noConfusion h
  · simp only [slice, hle, ite_false, if_false, Option.some.injEq] at h
    subst h
    refine ⟨rfl, ?_⟩
    simp (disch := omega) only [read_size, write_size, set_previous_free_block,
      set_next_free_block, HEADER_SIZE, POINTER_SIZE, mread_mstore_of_eq, mread_mstore_of_ne]

theorem malloc_core_payload (fuel size : Nat) (st : AllocState) (q : Nat)
    (h : (malloc_core fuel size st).1 = some q) :
    read_size (malloc_core fuel size st).2.mem (get_base_address q) = size := by
  cases hfit : findFit st.mem fuel st.free_list size with
  | some p =>
      cases hsl : slice st.mem st.free_list p size with
      | none =>
          simp only [malloc_core, hfit, hsl] at h
          exact Option.noConfusion h
      | some r =>
          simp only [malloc_core, hfit, hsl, Option.some.injEq] at h ⊢
          have hr := slice_result st.mem st.free_list p size r hsl
          subst h
          rw [hr.1, get_base_address, HEADER_SIZE, Nat.add_sub_cancel]
          exact hr.2
  | none =>
      rcases hsb : sbrk st ((2 * size + HEADER_SIZE : Nat) : Int) with ⟨o, s1⟩
      cases o with
      | none =>
          simp only [malloc_core, hfit, hsb] at h
          exact Option.noConfusion h
      | some w =>
          cases hsl : slice
              (write_size s1.mem (last_free_block st.mem fuel st.free_list)
                (read_size st.mem (last_free_block st.mem fuel st.free_list) +
                  (2 * size + HEADER_SIZE)))
              s1.free_list (last_free_block st.mem fuel st.free_list) size with
          | none =>
              simp only [malloc_core, hfit, hsb, hsl] at h
              exact Option.noConfusion h
          | some r =>
              simp only [malloc_core, hfit, hsb, hsl, Option.some.injEq] at h ⊢
              have hr := slice_result _ _ _ _ r hsl
              subst h
              rw [hr.1, get_base_address, HEADER_SIZE, Nat.add_sub_cancel]
              exact hr.2

/-! The claims. -/

/-- Claim C1 (code bug): allocating about 300 KiB from a fresh heap at base 8
and freeing the returned pointer does not empty the free list.  The code runs
`check_footprint` on the stale list before `_free_list` is reassigned, shrinks
the break only by the stale remainder (307192 + 8 bytes), has no branch
setting the head to null, and then installs the coalesced block (stored size
614400, extending far past the new break 307216) as the head. -/
theorem C1_reclamation_stale_head :
    obsSpine (runOps 8 [Op.alloc 307200, Op.dealloc 16] (freshState 8)) =
      (8, 307216, [(8, 614400, 0, 0)]) := by decide

/-- Claim C2 (code bug): after five allocations of 16 bytes and frees of the
first, fourth and third pointers, the last free coalesces the freed block
(at 48) with the following free block (at 72) in the middle of the list, but
never updates the back pointer of that block's successor (at 120): the
successor's `prev` still names the absorbed block 80, so the doubly-linked
invariant `b.next.prev = b` fails for the block at 56. -/
theorem C2_coalesce_breaks_backlink :
    obsLinks 56 128 (runOps 8 [Op.alloc 16, Op.alloc 16, Op.alloc 16, Op.alloc 16,
      Op.alloc 16, Op.dealloc 16, Op.dealloc 88, Op.dealloc 64] (freshState 8)) =
      (false, 128, 80) := by decide

/-- Claim C3 (code bug): `allocate(1)` from a fresh process hands out a block
whose stored size is 1 and leaves a free block of size 3 in the list — both
below the `2 * POINTER_SIZE = 16` bytes that the spec requires so that the
prev/next link slots fit inside a free block's payload. -/
theorem C3_undersized_blocks :
    (malloc 4 1 (freshState 8)).1 = some 16 ∧
    (malloc 4 1 (freshState 8)).2.free_list = 17 ∧
    read_size (malloc 4 1 (freshState 8)).2.mem 17 = 3 ∧
    read_size (malloc 4 1 (freshState 8)).2.mem 8 = 1 ∧
    3 < 2 * POINTER_SIZE := by decide

/-- Claim C4, counterexample: with the word-aligned heap base 8, the second
`allocate(3)` returns pointer 27, which is not word-aligned, and stored size
fields equal the raw request 3 — not a multiple of the word size. -/
theorem C4_unaligned_counterexample :
    (malloc 4 3 (malloc 4 3 (freshState 8)).2).1 = some 27 ∧
    27 % 8 ≠ 0 ∧
    read_size (malloc 4 3 (malloc 4 3 (freshState 8)).2).2.mem 19 = 3 ∧
    3 % 8 ≠ 0 := by decide

/-- Claim C4, amended: every successful `allocate(n)` returns a pointer whose
block stores exactly the effective request (`max(n,1)`), hence at least `n`
payload bytes; nothing rounds sizes to word multiples. -/
theorem C4_payload_capacity (fuel n q : Nat) (s : AllocState)
    (h : (malloc fuel n s).1 = some q) :
    read_size (malloc fuel n s).2.mem (get_base_address q) = (if n = 0 then 1 else n) ∧
    n ≤ read_size (malloc fuel n s).2.mem (get_base_address q) := by
  have key : read_size (malloc fuel n s).2.mem (get_base_address q) =
      (if n = 0 then 1 else n) := by
    by_cases h0 : s.free_list = 0
    · rcases hsb : sbrk s ((2 * (if n = 0 then 1 else n) + HEADER_SIZE : Nat) : Int)
        with ⟨o, s1⟩
      cases o with
      | none =>
          simp only [malloc, h0, hsb, ite_true, if_true] at h
          exact Option.noConfusion h
      | some w =>
          simp only [malloc, h0, hsb, ite_true, if_true] at h ⊢
          exact malloc_core_payload fuel _ _ q h
    · simp only [malloc, h0, ite_false, if_false] at h ⊢
      exact malloc_core_payload fuel _ s q h
  refine ⟨key, ?_⟩
  rw [key]
  split
  · omega
  · omega

theorem C4_payload_capacity_witness :
    read_size (malloc 4 20 (freshState 8)).2.mem (get_base_address 16) =
      (if 20 = 0 then 1 else 20) ∧
    20 ≤ read_size (malloc 4 20 (freshState 8)).2.mem (get_base_address 16) :=
  C4_payload_capacity 4 20 16 (freshState 8) (by decide)

/-- Claim C5, counterexample: at `n = 307200` the allocate-then-free
round trip does not leave a single block covering `[B + 8, break)` — the
buggy reclamation shrinks the break below the end of the surviving block. -/
theorem C5_no_coverage_counterexample :
    (malloc 8 307200 (freshState 8)).1 = some 16 ∧
    (free 8 16 (malloc 8 307200 (freshState 8)).2).map
      (fun s2 => singleCoveringBlock s2 8) = some false := by decide

/-- Claim C5, amended: for every `n < 131080` (so that the immediate free
does not reach the reclamation threshold), allocate then free of the only
handed-out pointer from a fresh process yields a free list of exactly one
block whose payload covers all of `[heap_base + H, program_break)`. -/
theorem C5_roundtrip (B n : Nat) (hB : 0 < B) (hn : n < 131080) :
    (malloc 4 n (freshState B)).1 = some (B + HEADER_SIZE) ∧
    (free 4 (B + HEADER_SIZE) (malloc 4 n (freshState B)).2).map
      (fun s2 => singleCoveringBlock s2 B) = some true := by
  set S := (if n = 0 then 1 else n) with hS
  have hS1 : 1 ≤ S := by
    rw [hS]
    split
    · omega
    · omega
  have hSb : S < 131080 := by
    rw [hS]
    split
    · omega
    · omega
  rw [HEADER_SIZE]
  have hB0 : ¬ (B = 0) := by omega
  by_cases hbig : 8 < S
  · have e := malloc_fresh_big B S n hB hbig hS.symm
    rw [e]
    refine ⟨rfl, ?_⟩
    have efree := free_after_single B S (2 * S - S - 8) (bigMem B S)
      { mem := bigMem B S, free_list := B + 8 + S, brk := B + (2 * S + 8),
        sbrkFail := [], sbrkLog := [((2 * S + 8 : Nat) : Int)] }
      rfl rfl hB (by omega)
      (bigMem_rs_base B S) (bigMem_rs_rem B S) (bigMem_prev_rem B S) (bigMem_next_rem B S)
      (by simp only [MAX_FREE_BLK]; omega)
    rw [efree]
    have hrfm : read_size (set_next_free_block (set_previous_free_block
        (coalesce (bigMem B S) B (B + 8 + S)) B 0) B 0) B = S + 8 + (2 * S - S - 8) := by
      simp (disch := omega) only [coalesce, read_size, write_size, set_previous_free_block,
        set_next_free_block, HEADER_SIZE, POINTER_SIZE, mread_mstore_of_eq,
        mread_mstore_of_ne]
      have g1 : mread (bigMem B S) B = S := bigMem_rs_base B S
      have g2 : mread (bigMem B S) (B + 8 + S) = 2 * S - S - 8 := bigMem_rs_rem B S
      rw [g1, g2]
    have hpfm : get_previous_free_block (set_next_free_block (set_previous_free_block
        (coalesce (bigMem B S) B (B + 8 + S)) B 0) B 0) B = 0 := by
      simp (disch := omega) only [coalesce, get_previous_free_block, write_size,
        set_previous_free_block, set_next_free_block, HEADER_SIZE, POINTER_SIZE,
        mread_mstore_of_eq, mread_mstore_of_ne]
    have hnfm : get_next_free_block (set_next_free_block (set_previous_free_block
        (coalesce (bigMem B S) B (B + 8 + S)) B 0) B 0) B = 0 := by
      simp (disch := omega) only [coalesce, get_next_free_block, write_size,
        set_previous_free_block, set_next_free_block, HEADER_SIZE, POINTER_SIZE,
        mread_mstore_of_eq, mread_mstore_of_ne]
    simp only [Option.map_some', Option.some.injEq, singleCoveringBlock, spine,
      hB0, hrfm, hpfm, hnfm, ite_false, ite_true, if_false, if_true,
      Bool.and_eq_true, decide_eq_true_eq, HEADER_SIZE]
    exact ⟨⟨trivial, trivial⟩, by omega⟩
  · have e := malloc_fresh_small B S n hB hS1 hbig hS.symm
    rw [e]
    refine ⟨rfl, ?_⟩
    have efree := free_after_single B S (2 * S + (2 * S + 8) - S - 8) (smallMem B S)
      { mem := smallMem B S, free_list := B + 8 + S,
        brk := B + (2 * S + 8) + (2 * S + 8), sbrkFail := [],
        sbrkLog := [((2 * S + 8 : Nat) : Int), ((2 * S + 8 : Nat) : Int)] }
      rfl rfl hB hS1
      (smallMem_rs_base B S) (smallMem_rs_rem B S) (smallMem_prev_rem B S)
      (smallMem_next_rem B S)
      (by simp only [MAX_FREE_BLK]; omega)
    rw [efree]
    have hrfm : read_size (set_next_free_block (set_previous_free_block
        (coalesce (smallMem B S) B (B + 8 + S)) B 0) B 0) B =
        S + 8 + (2 * S + (2 * S + 8) - S - 8) := by
      simp (disch := omega) only [coalesce, read_size, write_size, set_previous_free_block,
        set_next_free_block, HEADER_SIZE, POINTER_SIZE, mread_mstore_of_eq,
        mread_mstore_of_ne]
      have g1 : mread (smallMem B S) B = S := smallMem_rs_base B S
      have g2 : mread (smallMem B S) (B + 8 + S) = 2 * S + (2 * S + 8) - S - 8 :=
        smallMem_rs_rem B S
      rw [g1, g2]
    have hpfm : get_previous_free_block (set_next_free_block (set_previous_free_block
        (coalesce (smallMem B S) B (B + 8 + S)) B 0) B 0) B = 0 := by
      simp (disch := omega) only [coalesce, get_previous_free_block, write_size,
        set_previous_free_block, set_next_free_block, HEADER_SIZE, POINTER_SIZE,
        mread_mstore_of_eq, mread_mstore_of_ne]
    have hnfm : get_next_free_block (set_next_free_block (set_previous_free_block
        (coalesce (smallMem B S) B (B + 8 + S)) B 0) B 0) B = 0 := by
      simp (disch := omega) only [coalesce, get_next_free_block, write_size,
        set_previous_free_block, set_next_free_block, HEADER_SIZE, POINTER_SIZE,
        mread_mstore_of_eq, mread_mstore_of_ne]
    simp only [Option.map_some', Option.some.injEq, singleCoveringBlock, spine,
      hB0, hrfm, hpfm, hnfm, ite_false, ite_true, if_false, if_true,
      Bool.and_eq_true, decide_eq_true_eq, HEADER_SIZE]
    exact ⟨⟨trivial, trivial⟩, by omega⟩

theorem C5_roundtrip_witness :
    (malloc 4 20 (freshState 8)).1 = some (8 + HEADER_SIZE) ∧
    (free 4 (8 + HEADER_SIZE) (malloc 4 20 (freshState 8)).2).map
      (fun s2 => singleCoveringBlock s2 8) = some true :=
  C5_roundtrip 8 20 (by decide) (by decide)

/-- Claim C6: the allocation-time fit search is exactly `List.find?` with the
strict predicate `size + HEADER_SIZE < stored size` over the next-link walk
of the free list; consequently a block whose stored size equals
`size + HEADER_SIZE` is never the block chosen to satisfy the request. -/
theorem C6_first_fit (m : Mem) (fuel p n : Nat) :
    findFit m fuel p n =
      (chainOf m fuel p).find? (fun q => decide (n + HEADER_SIZE < read_size m q)) ∧
    (∀ q, findFit m fuel p n = some q → read_size m q ≠ n + HEADER_SIZE) := by
  have main : ∀ f p2, findFit m f p2 n =
      (chainOf m f p2).find? (fun q => decide (n + HEADER_SIZE < read_size m q)) := by
    intro f
    induction f with
    | zero => intro p2; rfl
    | succ k ih =>
        intro p2
        by_cases hp : p2 = 0
        · simp [findFit, chainOf, hp]
        · by_cases hlt : n + HEADER_SIZE < read_size m p2
          · simp [findFit, chainOf, hp, hlt]
          · simp [findFit, chainOf, hp, hlt, ih]
  refine ⟨main fuel p, ?_⟩
  intro q hq
  rw [main fuel p] at hq
  have hpred := List.find?_some hq
  simp only [decide_eq_true_eq] at hpred
  omega

theorem C6_first_fit_witness :
    findFit c6mem 5 8 16 = some 40 ∧ read_size c6mem 40 ≠ 16 + HEADER_SIZE :=
  ⟨((C6_first_fit c6mem 5 8 16).1).trans (by decide),
   (C6_first_fit c6mem 5 8 16).2 40 (by decide)⟩

/-- Claim C7: from a fresh state with break at `B > 0`, `allocate(64)` makes a
single program-break request of `2*64 + 8 = 136` bytes, returns `B + 8`,
advances the break to `B + 136`, stores size 64 in the returned block, and
leaves the free list holding exactly one block at `B + 72` of size 56. -/
theorem C7_first_allocation (B : Nat) (hB : 0 < B) :
    (malloc 4 64 (freshState B)).1 = some (B + 8) ∧
    (malloc 4 64 (freshState B)).2.sbrkLog = [(136 : Int)] ∧
    (malloc 4 64 (freshState B)).2.brk = B + 136 ∧
    (malloc 4 64 (freshState B)).2.free_list = B + 72 ∧
    read_size (malloc 4 64 (freshState B)).2.mem B = 64 ∧
    spine (malloc 4 64 (freshState B)).2.mem 2 (B + 72) = [(B + 72, 56, 0, 0)] := by
  have e := malloc_fresh_big B 64 64 hB (by omega) (by decide)
  rw [e]
  have f1 : read_size (bigMem B 64) (B + 72) = 56 := by
    have h := bigMem_rs_rem B 64
    rw [show B + 8 + 64 = B + 72 from by omega] at h
    simpa using h
  have f2 : get_previous_free_block (bigMem B 64) (B + 72) = 0 := by
    have h := bigMem_prev_rem B 64
    rwa [show B + 8 + 64 = B + 72 from by omega] at h
  have f3 : get_next_free_block (bigMem B 64) (B + 72) = 0 := by
    have h := bigMem_next_rem B 64
    rwa [show B + 8 + 64 = B + 72 from by omega] at h
  have hb0 : ¬ (B + 72 = 0) := by omega
  refine ⟨rfl, show [((2 * 64 + 8 : Nat) : Int)] = [(136 : Int)] by decide,
    show B + (2 * 64 + 8) = B + 136 by omega,
    show B + 8 + 64 = B + 72 by omega, bigMem_rs_base B 64, ?_⟩
  simp only [spine, hb0, f1, f2, f3, ite_false, if_false, ite_true, if_true]

theorem C7_first_allocation_witness :
    (malloc 4 64 (freshState 8)).1 = some (8 + 8) ∧
    (malloc 4 64 (freshState 8)).2.sbrkLog = [(136 : Int)] ∧
    (malloc 4 64 (freshState 8)).2.brk = 8 + 136 ∧
    (malloc 4 64 (freshState 8)).2.free_list = 8 + 72 ∧
    read_size (malloc 4 64 (freshState 8)).2.mem 8 = 64 ∧
    spine (malloc 4 64 (freshState 8)).2.mem 2 (8 + 72) = [(8 + 72, 56, 0, 0)] :=
  C7_first_allocation 8 (by decide)

/-- Claim C8, counterexample: from a fresh process whose first sbrk call
succeeds and second fails, `allocate(4)` returns null (lazy init succeeded,
growth failed), but the state is not as it was at entry: the free list head
changed from null to the installed initial block and the break grew. -/
theorem C8_partial_state_counterexample :
    (freshStateO 8 [false, true]).free_list = 0 ∧
    (freshStateO 8 [false, true]).brk = 8 ∧
    (malloc 4 4 (freshStateO 8 [false, true])).1 = none ∧
    (malloc 4 4 (freshStateO 8 [false, true])).2.free_list = 8 ∧
    (malloc 4 4 (freshStateO 8 [false, true])).2.brk = 24 := by decide

/-- Claim C8, amended: whenever the program-break primitive fails on the
lazy-initialization request, or fails on growth after an unsuccessful fit
search when the free list already existed at entry, `allocate` returns null
without aborting and the allocator state (heap memory, free list head, heap
extent) is exactly as at entry. -/
theorem C8_failure_returns_null (fuel n : Nat) (s : AllocState) :
    (s.free_list = 0 → s.sbrkFail.head? = some true →
      (malloc fuel n s).1 = none ∧ (malloc fuel n s).2.mem = s.mem ∧
      (malloc fuel n s).2.free_list = s.free_list ∧ (malloc fuel n s).2.brk = s.brk) ∧
    (s.free_list ≠ 0 →
      findFit s.mem fuel s.free_list (if n = 0 then 1 else n) = none →
      s.sbrkFail.head? = some true →
      (malloc fuel n s).1 = none ∧ (malloc fuel n s).2.mem = s.mem ∧
      (malloc fuel n s).2.free_list = s.free_list ∧ (malloc fuel n s).2.brk = s.brk) := by
  constructor
  · intro h0 hfail
    obtain ⟨t, ht⟩ := head_some_true s.sbrkFail hfail
    simp only [malloc, h0, sbrk, ht, ite_true, if_true]
    refine ⟨?_, ?_, ?_, ?_⟩ <;> trivial
  · intro hnz hfit hfail
    obtain ⟨t, ht⟩ := head_some_true s.sbrkFail hfail
    simp only [malloc, hnz, malloc_core, hfit, sbrk, ht, ite_true, ite_false,
      if_true, if_false]
    refine ⟨?_, ?_, ?_, ?_⟩ <;> trivial

theorem C8_failure_returns_null_witness :
    (malloc 4 5 (freshStateO 8 [true])).1 = none ∧
    (malloc 4 5 (freshStateO 8 [true])).2.mem = (freshStateO 8 [true]).mem ∧
    (malloc 4 5 (freshStateO 8 [true])).2.free_list = (freshStateO 8 [true]).free_list ∧
    (malloc 4 5 (freshStateO 8 [true])).2.brk = (freshStateO 8 [true]).brk :=
  (C8_failure_returns_null 4 5 (freshStateO 8 [true])).1 rfl rfl

/-- Claim C9, counterexample: a two-block free list whose tail has size
exactly `MAX_FREE_BLK`; the shrink request fails (break unchanged), yet the
free-list state is not unchanged: the tail was already detached and is not
re-linked, so the list afterwards holds only the head block. -/
theorem C9_detached_tail_counterexample :
    spine c9state.mem 4 c9state.free_list = [(8, 16, 0, 32), (32, 131072, 8, 0)] ∧
    c9state.sbrkFail = [true] ∧
    (check_footprint 4 c9state).brk = c9state.brk ∧
    spine (check_footprint 4 c9state).mem 4 (check_footprint 4 c9state).free_list =
      [(8, 16, 0, 0)] := by decide

/-- Claim C9, amended: when reclamation is attempted (tail size at least
`MAX_FREE_BLK`, a non-null predecessor `A`) and the shrink fails, the failure
is silently ignored — no abort, break and free-list head unchanged — but the
tail does not remain linked: the predecessor's next pointer has been set to
null before the shrink and is not restored. -/
theorem C9_shrink_failure_ignored (fuel : Nat) (s : AllocState) (L A : Nat)
    (hL : last_free_block s.mem fuel s.free_list = L)
    (hsz : MAX_FREE_BLK ≤ read_size s.mem L)
    (hA : get_previous_free_block s.mem L = A) (hA0 : A ≠ 0)
    (hf : s.sbrkFail.head? = some true) :
    (check_footprint fuel s).brk = s.brk ∧
    (check_footprint fuel s).free_list = s.free_list ∧
    (check_footprint fuel s).mem = set_next_free_block s.mem A 0 := by
  obtain ⟨t, ht⟩ := head_some_true s.sbrkFail hf
  simp only [check_footprint, hL, hA, hsz, hA0, ne_eq, not_false_iff, sbrk, ht,
    ite_true, ite_false, if_true, if_false]
  refine ⟨?_, ?_, ?_⟩ <;> trivial

theorem C9_shrink_failure_ignored_witness :
    (check_footprint 4 c9state).brk = c9state.brk ∧
    (check_footprint 4 c9state).free_list = c9state.free_list ∧
    (check_footprint 4 c9state).mem = set_next_free_block c9state.mem 8 0 :=
  C9_shrink_failure_ignored 4 c9state 32 8 (by decide) (by decide) (by decide)
    (by decide) rfl

/-- Claim C10: `free` of the null pointer changes nothing, and `free` of a
non-null pointer while the free list has never been created aborts the
process (the SIGSEGV self-kill, modeled as `none`). -/
theorem C10_null_noop_and_corruption_abort (fuel p : Nat) (s : AllocState) :
    free fuel 0 s = some s ∧ (p ≠ 0 → s.free_list = 0 → free fuel p s = none) := by
  constructor
  · simp only [free, ite_true, if_true]
  · intro hp h0
    simp only [free, hp, h0, ite_true, ite_false, if_true, if_false]

theorem C10_null_noop_and_corruption_abort_witness :
    free 4 0 (freshState 8) = some (freshState 8) ∧ free 4 16 (freshState 8) = none :=
  ⟨(C10_null_noop_and_corruption_abort 4 16 (freshState 8)).1,
   (C10_null_noop_and_corruption_abort 4 16 (freshState 8)).2 (by decide) rfl⟩

end MallocSpec
